import Mathlib

/-!
Verification of the concurrent seat-reservation and payment-settlement core
of the flight-booking service: the per-seat state machine
(HoldSeat / ConfirmSeat / ReleaseSeat on a Flight's seat map), the metrics
aggregator (Record / AverageLatency), and the worker's per-request algorithm
(hold, race payment against a deadline, resolve the seat, record the outcome).

The Go code is embedded shallowly: the seat map becomes an association list
from seat number to status (the Go map holds pointers to mutexed Seat values;
each operation's check-and-set runs under that seat's lock, so each operation
is one atomic step on the map), `int64` counters become `Int`, `time.Duration`
becomes `Int` nanoseconds, and the worker's `select` race is an explicit
event telling which of the two arms fired first.
-/

namespace FlightBooking

/-- Seat status enumeration, from `type SeatStatus int` with
`Available`, `Held`, `Booked` (iota order). -/
inductive SeatStatus where
  | Available : SeatStatus
  | Held : SeatStatus
  | Booked : SeatStatus
deriving DecidableEq, Repr

/-- The `Seat_metrix map[string]*Seat` of a Flight, abstracted to the
association of seat numbers to their current status. -/
abbrev SeatMap := List (String × SeatStatus)

/-- Go map lookup `seat, exists := f.Seat_metrix[seatNo]`, reduced to the
seat's status. -/
def lookupSeat : SeatMap → String → Option SeatStatus
  | [], _ => none
  | p :: rest, s => if p.1 = s then some p.2 else lookupSeat rest s

/-- In-place mutation `seat.Status = st` through the pointer stored in the
map: the entry for that seat number changes status, keys are untouched. -/
def setSeat (m : SeatMap) (s : String) (st : SeatStatus) : SeatMap :=
  m.map (fun p => if p.1 = s then (p.1, st) else p)

/-- Embedding of `func (f *Flight) HoldSeat(seatNo string) bool`:
unknown seat or status other than Available fails with false; otherwise the
status becomes Held and the call returns true. The check and the write happen
under the seat's own lock, hence as one step here. -/
def HoldSeat (m : SeatMap) (seatNo : String) : Bool × SeatMap :=
  match lookupSeat m seatNo with
  | none => (false, m)
  | some st =>
    if st ≠ SeatStatus.Available then (false, m)
    else (true, setSeat m seatNo SeatStatus.Held)

/-- Embedding of `func (f *Flight) ConfirmSeat(seatNo string) bool`:
unknown seat or status other than Held fails with false; otherwise the status
becomes Booked and the call returns true. -/
def ConfirmSeat (m : SeatMap) (seatNo : String) : Bool × SeatMap :=
  match lookupSeat m seatNo with
  | none => (false, m)
  | some st =>
    if st ≠ SeatStatus.Held then (false, m)
    else (true, setSeat m seatNo SeatStatus.Booked)

/-- Embedding of `func (f *Flight) ReleaseSeat(seatNo string)`: sets a Held
seat back to Available, does nothing on an unknown seat or any other
status. -/
def ReleaseSeat (m : SeatMap) (seatNo : String) : SeatMap :=
  match lookupSeat m seatNo with
  | none => m
  | some st =>
    if st = SeatStatus.Held then setSeat m seatNo SeatStatus.Available else m

theorem lookup_setSeat_self (m : SeatMap) (s : String) (st : SeatStatus) :
    lookupSeat (setSeat m s st) s = (lookupSeat m s).map (fun _ => st) := by
  induction m with
  | nil => rfl
  | cons p rest ih =>
    simp only [setSeat, List.map_cons] at ih ⊢
    by_cases hp : p.1 = s
    · simp [lookupSeat, hp]
    · simp [lookupSeat, hp, ih]

theorem lookup_setSeat_other (m : SeatMap) (s k : String) (st : SeatStatus)
    (h : k ≠ s) : lookupSeat (setSeat m s st) k = lookupSeat m k := by
  induction m with
  | nil => rfl
  | cons p rest ih =>
    simp only [setSeat, List.map_cons] at ih ⊢
    have hsk : s ≠ k := Ne.symm h
    by_cases hp : p.1 = s
    · simp [lookupSeat, hp, hsk, ih]
    · by_cases hk : p.1 = k
      · simp [lookupSeat, hp, hk, h]
      · simp [lookupSeat, hp, hk, ih]

theorem holdSeat_of_not_available (m : SeatMap) (s : String)
    (h : lookupSeat m s ≠ some SeatStatus.Available) : HoldSeat m s = (false, m) := by
  unfold HoldSeat
  match hl : lookupSeat m s with
  | none => rfl
  | some st =>
    have : st ≠ SeatStatus.Available := fun hst => h (by rw [hl, hst])
    simp [this]

theorem holdSeat_of_available (m : SeatMap) (s : String)
    (h : lookupSeat m s = some SeatStatus.Available) :
    HoldSeat m s = (true, setSeat m s SeatStatus.Held) := by
  unfold HoldSeat; rw [h]; simp

theorem confirmSeat_of_not_held (m : SeatMap) (s : String)
    (h : lookupSeat m s ≠ some SeatStatus.Held) : ConfirmSeat m s = (false, m) := by
  unfold ConfirmSeat
  match hl : lookupSeat m s with
  | none => rfl
  | some st =>
    have : st ≠ SeatStatus.Held := fun hst => h (by rw [hl, hst])
    simp [this]

theorem confirmSeat_of_held (m : SeatMap) (s : String)
    (h : lookupSeat m s = some SeatStatus.Held) :
    ConfirmSeat m s = (true, setSeat m s SeatStatus.Booked) := by
  unfold ConfirmSeat; rw [h]; simp

theorem releaseSeat_of_held (m : SeatMap) (s : String)
    (h : lookupSeat m s = some SeatStatus.Held) :
    ReleaseSeat m s = setSeat m s SeatStatus.Available := by
  unfold ReleaseSeat; rw [h]; simp

theorem releaseSeat_of_not_held (m : SeatMap) (s : String)
    (h : lookupSeat m s ≠ some SeatStatus.Held) : ReleaseSeat m s = m := by
  unfold ReleaseSeat
  match hl : lookupSeat m s with
  | none => rfl
  | some st =>
    have : st ≠ SeatStatus.Held := fun hst => h (by rw [hl, hst])
    simp [this]

/-- C2: HoldSeat returns false and leaves every seat's status unchanged when
the seat number is unknown or the seat is not Available; when the seat is
Available it returns true, sets exactly that seat to Held, and leaves every
other seat unchanged. -/
theorem holdSeat_spec (m : SeatMap) (s : String) :
    (lookupSeat m s ≠ some SeatStatus.Available → HoldSeat m s = (false, m)) ∧
    (lookupSeat m s = some SeatStatus.Available →
      (HoldSeat m s).1 = true ∧
      lookupSeat (HoldSeat m s).2 s = some SeatStatus.Held ∧
      ∀ k, k ≠ s → lookupSeat (HoldSeat m s).2 k = lookupSeat m k) := by
  refine ⟨holdSeat_of_not_available m s, fun h => ?_⟩
  rw [holdSeat_of_available m s h]
  exact ⟨rfl, by simp [lookup_setSeat_self, h],
    fun k hk => lookup_setSeat_other m s k _ hk⟩

/-- Witness for C2 on a concrete two-seat map: holding an Available seat
succeeds and moves only that seat to Held. -/
theorem holdSeat_spec_witness :
    lookupSeat [("A1", SeatStatus.Available), ("A2", SeatStatus.Booked)] "A1"
      = some SeatStatus.Available ∧
    (HoldSeat [("A1", SeatStatus.Available), ("A2", SeatStatus.Booked)] "A1").1
      = true := by
  refine ⟨by decide, ?_⟩
  exact ((holdSeat_spec [("A1", SeatStatus.Available), ("A2", SeatStatus.Booked)]
    "A1").2 (by decide)).1

/-- C7: ConfirmSeat returns true and books the seat exactly when the seat
exists and is Held; in every other case it returns false and leaves the whole
seat map unchanged. -/
theorem confirmSeat_spec (m : SeatMap) (s : String) :
    (lookupSeat m s ≠ some SeatStatus.Held → ConfirmSeat m s = (false, m)) ∧
    (lookupSeat m s = some SeatStatus.Held →
      (ConfirmSeat m s).1 = true ∧
      lookupSeat (ConfirmSeat m s).2 s = some SeatStatus.Booked ∧
      ∀ k, k ≠ s → lookupSeat (ConfirmSeat m s).2 k = lookupSeat m k) := by
  refine ⟨confirmSeat_of_not_held m s, fun h => ?_⟩
  rw [confirmSeat_of_held m s h]
  exact ⟨rfl, by simp [lookup_setSeat_self, h],
    fun k hk => lookup_setSeat_other m s k _ hk⟩

/-- Witness for C7 on a concrete map: confirming a Held seat succeeds and
books it; confirming an Available seat returns false and changes nothing. -/
theorem confirmSeat_spec_witness :
    lookupSeat [("A1", SeatStatus.Held)] "A1" = some SeatStatus.Held ∧
    (ConfirmSeat [("A1", SeatStatus.Held)] "A1").1 = true ∧
    ConfirmSeat [("A2", SeatStatus.Available)] "A2"
      = (false, [("A2", SeatStatus.Available)]) := by
  refine ⟨by decide, ?_, ?_⟩
  · exact ((confirmSeat_spec [("A1", SeatStatus.Held)] "A1").2 (by decide)).1
  · exact (confirmSeat_spec [("A2", SeatStatus.Available)] "A2").1 (by decide)

/-- C8: ReleaseSeat moves a Held seat to Available and otherwise changes
nothing; in particular it is idempotent. -/
theorem releaseSeat_spec (m : SeatMap) (s : String) :
    (lookupSeat m s = some SeatStatus.Held →
      ReleaseSeat m s = setSeat m s SeatStatus.Available) ∧
    (lookupSeat m s ≠ some SeatStatus.Held → ReleaseSeat m s = m) ∧
    ReleaseSeat (ReleaseSeat m s) s = ReleaseSeat m s := by
  refine ⟨releaseSeat_of_held m s, releaseSeat_of_not_held m s, ?_⟩
  by_cases h : lookupSeat m s = some SeatStatus.Held
  · rw [releaseSeat_of_held m s h]
    apply releaseSeat_of_not_held
    rw [lookup_setSeat_self, h]
    simp
  · rw [releaseSeat_of_not_held m s h, releaseSeat_of_not_held m s h]

/-- Witness for C8 on a concrete map: releasing a Held seat yields Available,
and a second release is a no-op. -/
theorem releaseSeat_spec_witness :
    lookupSeat [("A1", SeatStatus.Held)] "A1" = some SeatStatus.Held ∧
    ReleaseSeat [("A1", SeatStatus.Held)] "A1"
      = setSeat [("A1", SeatStatus.Held)] "A1" SeatStatus.Available ∧
    ReleaseSeat (ReleaseSeat [("A1", SeatStatus.Held)] "A1") "A1"
      = ReleaseSeat [("A1", SeatStatus.Held)] "A1" := by
  refine ⟨by decide, ?_, ?_⟩
  · exact (releaseSeat_spec [("A1", SeatStatus.Held)] "A1").1 (by decide)
  · exact (releaseSeat_spec [("A1", SeatStatus.Held)] "A1").2.2

/-- One invocation of a seat operation, as issued by the workers. -/
inductive SeatOpKind where
  | hold : String → SeatOpKind
  | confirm : String → SeatOpKind
  | release : String → SeatOpKind
deriving DecidableEq, Repr

/-- Effect of one seat operation on the seat map (each operation's
check-and-set runs under the seat's lock, so it is one atomic step). -/
def applyOp (m : SeatMap) : SeatOpKind → SeatMap
  | SeatOpKind.hold s => (HoldSeat m s).2
  | SeatOpKind.confirm s => (ConfirmSeat m s).2
  | SeatOpKind.release s => ReleaseSeat m s

/-- The legal evolutions of one seat's observed status across a single
operation: unchanged, Available→Held, Held→Booked, or Held→Available. -/
def legalStep (a b : Option SeatStatus) : Prop :=
  a = b ∨
  (a = some SeatStatus.Available ∧ b = some SeatStatus.Held) ∨
  (a = some SeatStatus.Held ∧ b = some SeatStatus.Booked) ∨
  (a = some SeatStatus.Held ∧ b = some SeatStatus.Available)

/-- The sequence of seat-map states visited while running a list of
operations from an initial map. -/
def trace (m : SeatMap) (ops : List SeatOpKind) : List SeatMap :=
  List.scanl applyOp m ops

theorem applyOp_legalStep (m : SeatMap) (op : SeatOpKind) (k : String) :
    legalStep (lookupSeat m k) (lookupSeat (applyOp m op) k) := by
  cases op with
  | hold s =>
    show legalStep _ (lookupSeat (HoldSeat m s).2 k)
    by_cases h : lookupSeat m s = some SeatStatus.Available
    · rw [holdSeat_of_available m s h]
      by_cases hk : k = s
      · subst hk
        rw [lookup_setSeat_self, h]
        exact Or.inr (Or.inl ⟨rfl, rfl⟩)
      · rw [lookup_setSeat_other m s k _ hk]
        exact Or.inl rfl
    · rw [holdSeat_of_not_available m s h]
      exact Or.inl rfl
  | confirm s =>
    show legalStep _ (lookupSeat (ConfirmSeat m s).2 k)
    by_cases h : lookupSeat m s = some SeatStatus.Held
    · rw [confirmSeat_of_held m s h]
      by_cases hk : k = s
      · subst hk
        rw [lookup_setSeat_self, h]
        exact Or.inr (Or.inr (Or.inl ⟨rfl, rfl⟩))
      · rw [lookup_setSeat_other m s k _ hk]
        exact Or.inl rfl
    · rw [confirmSeat_of_not_held m s h]
      exact Or.inl rfl
  | release s =>
    show legalStep _ (lookupSeat (ReleaseSeat m s) k)
    by_cases h : lookupSeat m s = some SeatStatus.Held
    · rw [releaseSeat_of_held m s h]
      by_cases hk : k = s
      · subst hk
        rw [lookup_setSeat_self, h]
        exact Or.inr (Or.inr (Or.inr ⟨rfl, rfl⟩))
      · rw [lookup_setSeat_other m s k _ hk]
        exact Or.inl rfl
    · rw [releaseSeat_of_not_held m s h]
      exact Or.inl rfl

theorem scanl_applyOp_head (b : SeatMap) (l : List SeatOpKind) :
    (List.scanl applyOp b l).head? = some b := by
  cases l <;> simp [List.scanl]

/-- C3: along any sequence of HoldSeat / ConfirmSeat / ReleaseSeat
operations, every seat's status only ever changes by Available→Held,
Held→Booked or Held→Available between consecutive states; in particular no
seat ever jumps from Available to Booked or leaves Booked. -/
theorem seat_transitions_legal (m : SeatMap) (ops : List SeatOpKind) :
    List.Chain' (fun m1 m2 => ∀ k, legalStep (lookupSeat m1 k) (lookupSeat m2 k))
      (trace m ops) := by
  unfold trace
  induction ops generalizing m with
  | nil => simp
  | cons op rest ih =>
    rw [List.scanl_cons, List.singleton_append]
    refine List.chain'_cons'.mpr ⟨?_, ih (applyOp m op)⟩
    intro y hy
    rw [scanl_applyOp_head] at hy
    have : y = applyOp m op := by
      cases hy
      rfl
    subst this
    exact fun k => applyOp_legalStep m op k

/-- Repeated serialized HoldSeat calls on the same seat: the seat lock makes
each check-and-set atomic, so any interleaving of n concurrent callers is
some sequential order of n calls, each seeing the previous call's state. -/
def runHolds (m : SeatMap) (s : String) : Nat → List Bool × SeatMap
  | 0 => ([], m)
  | Nat.succ n =>
    let r := HoldSeat m s
    let rest := runHolds r.2 s n
    (r.1 :: rest.1, rest.2)

theorem runHolds_held (m : SeatMap) (s : String) (n : Nat)
    (h : lookupSeat m s = some SeatStatus.Held) :
    runHolds m s n = (List.replicate n false, m) := by
  induction n generalizing m with
  | zero => rfl
  | succ n ih =>
    have hfail : HoldSeat m s = (false, m) :=
      holdSeat_of_not_available m s (by rw [h]; simp)
    rw [runHolds]
    simp only [hfail, ih m h, List.replicate_succ]

/-- C9: starting from an Available seat, among any number of (lock-serialized)
concurrent HoldSeat calls on that seat, exactly one returns true and all the
others return false. -/
theorem holdSeat_mutual_exclusion (m : SeatMap) (s : String) (n : Nat)
    (h : lookupSeat m s = some SeatStatus.Available) :
    ((runHolds m s (n + 1)).1.count true) = 1 := by
  rw [runHolds]
  simp only [holdSeat_of_available m s h]
  have hHeld : lookupSeat (setSeat m s SeatStatus.Held) s
      = some SeatStatus.Held := by
    rw [lookup_setSeat_self, h]
    rfl
  rw [runHolds_held _ _ n hHeld]
  simp [List.count_replicate]

/-- Witness for C9: two racing holds on an Available seat produce exactly one
true. -/
theorem holdSeat_mutual_exclusion_witness :
    lookupSeat [("A1", SeatStatus.Available)] "A1" = some SeatStatus.Available ∧
    ((runHolds [("A1", SeatStatus.Available)] "A1" 2).1.count true) = 1 :=
  ⟨by decide, holdSeat_mutual_exclusion [("A1", SeatStatus.Available)] "A1" 1
    (by decide)⟩

/-- Metrics counters, from `type Metrics struct`: int64 request/outcome
counters and the cumulative latency in nanoseconds. -/
structure Metrics where
  TotalRequests : Int
  Success : Int
  Failed : Int
  Timeout : Int
  TotalLatency : Int
deriving DecidableEq, Repr

/-- Zero value of Metrics, as in `var GlobalMetrics = &Metrics{}`. -/
def Metrics.zero : Metrics := ⟨0, 0, 0, 0, 0⟩

/-- Embedding of `func (m *Metrics) Record(duration, status)`: always bumps
TotalRequests and TotalLatency, then the Go switch bumps the counter matching
the status string; an unrecognized status bumps no outcome counter. -/
def Record (m : Metrics) (durationNs : Int) (status : String) : Metrics :=
  let m1 : Metrics := { m with TotalRequests := m.TotalRequests + 1,
                               TotalLatency := m.TotalLatency + durationNs }
  if status = "success" then { m1 with Success := m1.Success + 1 }
  else if status = "failed" then { m1 with Failed := m1.Failed + 1 }
  else if status = "timeout" then { m1 with Timeout := m1.Timeout + 1 }
  else m1

/-- Embedding of `func (m *Metrics) AverageLatency()`: zero when there are no
requests, otherwise the int64 quotient (Go division truncates toward zero,
hence tdiv). -/
def AverageLatency (m : Metrics) : Int :=
  if m.TotalRequests = 0 then 0 else m.TotalLatency.tdiv m.TotalRequests

/-- Folding a sequence of Record(duration, status) calls over a metrics
value. -/
def runRecords (m : Metrics) (calls : List (Int × String)) : Metrics :=
  calls.foldl (fun acc c => Record acc c.1 c.2) m

/-- Combined outcome count: success + failed + timeout. -/
def outcomeSum (m : Metrics) : Int := m.Success + m.Failed + m.Timeout

theorem record_TotalRequests (m : Metrics) (d : Int) (s : String) :
    (Record m d s).TotalRequests = m.TotalRequests + 1 := by
  unfold Record
  split_ifs <;> rfl

theorem record_TotalLatency (m : Metrics) (d : Int) (s : String) :
    (Record m d s).TotalLatency = m.TotalLatency + d := by
  unfold Record
  split_ifs <;> rfl

theorem record_outcomeSum_of_valid (m : Metrics) (d : Int) (s : String)
    (h : s = "success" ∨ s = "failed" ∨ s = "timeout") :
    outcomeSum (Record m d s) = outcomeSum m + 1 := by
  unfold Record outcomeSum
  rcases h with h | h | h <;> subst h <;> simp <;> ring

theorem runRecords_conserves (calls : List (Int × String)) :
    ∀ m : Metrics,
    (∀ c ∈ calls, c.2 = "success" ∨ c.2 = "failed" ∨ c.2 = "timeout") →
    outcomeSum m = m.TotalRequests →
    outcomeSum (runRecords m calls) = (runRecords m calls).TotalRequests := by
  induction calls with
  | nil => exact fun m _ hm => hm
  | cons c rest ih =>
    intro m h hm
    have hc := h c (List.mem_cons_self c rest)
    have hrest := fun x hx => h x (List.mem_cons_of_mem c hx)
    show outcomeSum (runRecords (Record m c.1 c.2) rest)
        = (runRecords (Record m c.1 c.2) rest).TotalRequests
    exact ih (Record m c.1 c.2) hrest (by
      rw [record_outcomeSum_of_valid m c.1 c.2 hc, record_TotalRequests, hm])

/-- C4: starting from zeroed metrics, after any finite sequence of Record
calls whose outcomes all lie in success/failed/timeout, the counters satisfy
success + failed + timeout = totalRequests. -/
theorem metrics_conservation (calls : List (Int × String))
    (h : ∀ c ∈ calls, c.2 = "success" ∨ c.2 = "failed" ∨ c.2 = "timeout") :
    outcomeSum (runRecords Metrics.zero calls)
      = (runRecords Metrics.zero calls).TotalRequests :=
  runRecords_conserves calls Metrics.zero h rfl

/-- Witness for C4 on a concrete run of three valid Record calls. -/
theorem metrics_conservation_witness :
    outcomeSum (runRecords Metrics.zero [(5, "success"), (3, "timeout"), (2, "failed")])
      = (runRecords Metrics.zero [(5, "success"), (3, "timeout"), (2, "failed")]).TotalRequests :=
  metrics_conservation [(5, "success"), (3, "timeout"), (2, "failed")] (by decide)

/-- C10: Record with a status outside success/failed/timeout still bumps
totalRequests and totalLatency but no outcome counter, so one such call makes
the outcome sum strictly smaller than totalRequests. -/
theorem record_unknown_status (m : Metrics) (d : Int) (s : String)
    (h1 : s ≠ "success") (h2 : s ≠ "failed") (h3 : s ≠ "timeout") :
    Record m d s = { m with TotalRequests := m.TotalRequests + 1,
                            TotalLatency := m.TotalLatency + d } ∧
    (outcomeSum m = m.TotalRequests →
      outcomeSum (Record m d s) < (Record m d s).TotalRequests) := by
  have heq : Record m d s = { m with TotalRequests := m.TotalRequests + 1,
                                     TotalLatency := m.TotalLatency + d } := by
    unfold Record
    simp [h1, h2, h3]
  refine ⟨heq, fun hm => ?_⟩
  rw [heq]
  unfold outcomeSum at hm ⊢
  simp only
  omega

/-- Witness for C10: a Record call with status "cancelled" on zeroed metrics
leaves all outcome counters at zero while totalRequests becomes one. -/
theorem record_unknown_status_witness :
    Record Metrics.zero 7 "cancelled"
      = { Metrics.zero with TotalRequests := Metrics.zero.TotalRequests + 1,
                            TotalLatency := Metrics.zero.TotalLatency + 7 } ∧
    outcomeSum (Record Metrics.zero 7 "cancelled")
      < (Record Metrics.zero 7 "cancelled").TotalRequests := by
  have h := record_unknown_status Metrics.zero 7 "cancelled"
    (by decide) (by decide) (by decide)
  exact ⟨h.1, h.2 rfl⟩

theorem runRecords_TotalRequests (calls : List (Int × String)) :
    ∀ m : Metrics, (runRecords m calls).TotalRequests
      = m.TotalRequests + (calls.length : Int) := by
  induction calls with
  | nil => intro m; simp [runRecords]
  | cons c rest ih =>
    intro m
    show (runRecords (Record m c.1 c.2) rest).TotalRequests = _
    rw [ih, record_TotalRequests]
    simp [List.length_cons]
    ring

theorem runRecords_TotalLatency (calls : List (Int × String)) :
    ∀ m : Metrics, (runRecords m calls).TotalLatency
      = m.TotalLatency + (calls.map Prod.fst).sum := by
  induction calls with
  | nil => intro m; simp [runRecords]
  | cons c rest ih =>
    intro m
    show (runRecords (Record m c.1 c.2) rest).TotalLatency = _
    rw [ih, record_TotalLatency]
    simp
    ring

theorem sum_between_bounds (a b : Int) :
    ∀ ds : List Int, (∀ d ∈ ds, a ≤ d ∧ d ≤ b) →
    (ds.length : Int) * a ≤ ds.sum ∧ ds.sum ≤ (ds.length : Int) * b := by
  intro ds
  induction ds with
  | nil => intro _; simp
  | cons d rest ih =>
    intro h
    have hd := h d (List.mem_cons_self d rest)
    have hrest := ih (fun x hx => h x (List.mem_cons_of_mem d hx))
    simp only [List.sum_cons, List.length_cons]
    push_cast
    exact ⟨by nlinarith [hd.1, hrest.1], by nlinarith [hd.2, hrest.2]⟩

theorem tdiv_between (s n a b : Int) (hn : 0 < n)
    (h1 : n * a ≤ s) (h2 : s ≤ n * b) :
    a ≤ s.tdiv n ∧ s.tdiv n ≤ b := by
  have hn0 : n ≠ 0 := ne_of_gt hn
  by_cases hs : 0 ≤ s
  · rw [Int.tdiv_eq_ediv hs (le_of_lt hn)]
    constructor
    · have h := Int.ediv_le_ediv hn h1
      rwa [Int.mul_ediv_cancel_left a hn0] at h
    · have h := Int.ediv_le_ediv hn h2
      rwa [Int.mul_ediv_cancel_left b hn0] at h
  · have hs' : (0 : Int) ≤ -s := by omega
    have hneg : s.tdiv n = -((-s).tdiv n) := by
      rw [Int.neg_tdiv, Int.neg_neg]
    rw [hneg, Int.tdiv_eq_ediv hs' (le_of_lt hn)]
    constructor
    · have hma : n * (-a) = -(n * a) := by ring
      have hle : -s ≤ n * (-a) := by rw [hma]; omega
      have h := Int.ediv_le_ediv hn hle
      rw [Int.mul_ediv_cancel_left (-a) hn0] at h
      omega
    · have hmb : n * (-b) = -(n * b) := by ring
      have hle : n * (-b) ≤ -s := by rw [hmb]; omega
      have h := Int.ediv_le_ediv hn hle
      rw [Int.mul_ediv_cancel_left (-b) hn0] at h
      omega

/-- C6: AverageLatency is zero on zeroed metrics, and after any nonempty
sequence of Record calls it equals the truncated quotient
totalLatency/totalRequests, a value lying between any lower bound and any
upper bound of the recorded durations — in particular between their minimum
and maximum. -/
theorem averageLatency_spec (calls : List (Int × String)) (dmin dmax : Int)
    (hne : calls ≠ [])
    (hb : ∀ c ∈ calls, dmin ≤ c.1 ∧ c.1 ≤ dmax) :
    AverageLatency Metrics.zero = 0 ∧
    AverageLatency (runRecords Metrics.zero calls)
      = (runRecords Metrics.zero calls).TotalLatency.tdiv
          (runRecords Metrics.zero calls).TotalRequests ∧
    dmin ≤ AverageLatency (runRecords Metrics.zero calls) ∧
    AverageLatency (runRecords Metrics.zero calls) ≤ dmax := by
  have hTR : (runRecords Metrics.zero calls).TotalRequests
      = (calls.length : Int) := by
    rw [runRecords_TotalRequests]
    simp [Metrics.zero]
  have hTL : (runRecords Metrics.zero calls).TotalLatency
      = (calls.map Prod.fst).sum := by
    rw [runRecords_TotalLatency]
    simp [Metrics.zero]
  have hlenI : (0 : Int) < (calls.length : Int) := by
    exact_mod_cast List.length_pos.mpr hne
  have hTRne : (runRecords Metrics.zero calls).TotalRequests ≠ 0 := by
    rw [hTR]
    exact ne_of_gt hlenI
  have havg : AverageLatency (runRecords Metrics.zero calls)
      = (runRecords Metrics.zero calls).TotalLatency.tdiv
          (runRecords Metrics.zero calls).TotalRequests := by
    unfold AverageLatency
    rw [if_neg hTRne]
  have hbounds := sum_between_bounds dmin dmax (calls.map Prod.fst) (by
    intro d hd
    obtain ⟨c, hc, rfl⟩ := List.mem_map.mp hd
    exact hb c hc)
  have hb1 : (calls.length : Int) * dmin ≤ (calls.map Prod.fst).sum := by
    have h := hbounds.1
    simpa using h
  have hb2 : (calls.map Prod.fst).sum ≤ (calls.length : Int) * dmax := by
    have h := hbounds.2
    simpa using h
  have ht := tdiv_between ((calls.map Prod.fst).sum) ((calls.length : Int))
    dmin dmax hlenI hb1 hb2
  refine ⟨by decide, havg, ?_, ?_⟩
  · rw [havg, hTL, hTR]
    exact ht.1
  · rw [havg, hTL, hTR]
    exact ht.2

/-- Witness for C6: two recorded durations 4 and 6 give an average between 4
and 6. -/
theorem averageLatency_spec_witness :
    (4 : Int) ≤ AverageLatency (runRecords Metrics.zero [(4, "success"), (6, "failed")]) ∧
    AverageLatency (runRecords Metrics.zero [(4, "success"), (6, "failed")]) ≤ 6 := by
  have h := averageLatency_spec [(4, "success"), (6, "failed")] 4 6
    (by decide) (by decide)
  exact ⟨h.2.2.1, h.2.2.2⟩

/-- Which arm of the worker's select fired first: the payment goroutine's
result arrived before the deadline, or `time.After(8 * time.Second)` fired
first. -/
inductive PaymentEvent where
  | result : Bool → PaymentEvent
  | deadline : PaymentEvent
deriving DecidableEq, Repr

/-- What one worker iteration did: the final seat map, the status string it
records, and the seat operations it invoked, in order. -/
structure WorkerOutcome where
  seats : SeatMap
  status : String
  ops : List SeatOpKind
deriving DecidableEq, Repr

/-- Embedding of the per-request body of `func worker`: try HoldSeat; on
failure record status "failed" and stop; on success race the payment against
the deadline (`ev` names the select arm that fired first) and resolve the
seat accordingly, recording "success", "failed" or "timeout". -/
def processRequest (m : SeatMap) (seatNo : String) (ev : PaymentEvent) :
    WorkerOutcome :=
  let hold := HoldSeat m seatNo
  if !hold.1 then
    { seats := hold.2, status := "failed", ops := [SeatOpKind.hold seatNo] }
  else
    match ev with
    | PaymentEvent.result true =>
      { seats := (ConfirmSeat hold.2 seatNo).2, status := "success",
        ops := [SeatOpKind.hold seatNo, SeatOpKind.confirm seatNo] }
    | PaymentEvent.result false =>
      { seats := ReleaseSeat hold.2 seatNo, status := "failed",
        ops := [SeatOpKind.hold seatNo, SeatOpKind.release seatNo] }
    | PaymentEvent.deadline =>
      { seats := ReleaseSeat hold.2 seatNo, status := "timeout",
        ops := [SeatOpKind.hold seatNo, SeatOpKind.release seatNo] }

theorem holdSeat_snd_of_fail (m : SeatMap) (s : String)
    (h : (HoldSeat m s).1 = false) : (HoldSeat m s).2 = m := by
  by_cases ha : lookupSeat m s = some SeatStatus.Available
  · rw [holdSeat_of_available m s ha] at h
    cases h
  · rw [holdSeat_of_not_available m s ha]

/-- C5: the worker's four cases. A failed hold records "failed" and touches
no seat beyond the failed hold itself (the map is unchanged); after a
successful hold, a true payment result before the deadline confirms the seat
and records "success", a false result releases it and records "failed", and
a deadline firing first releases it and records "timeout". -/
theorem worker_outcomes (m : SeatMap) (s : String) (ev : PaymentEvent) :
    ((HoldSeat m s).1 = false →
      processRequest m s ev
        = { seats := m, status := "failed", ops := [SeatOpKind.hold s] }) ∧
    ((HoldSeat m s).1 = true →
      (ev = PaymentEvent.result true →
        processRequest m s ev
          = { seats := (ConfirmSeat (HoldSeat m s).2 s).2, status := "success",
              ops := [SeatOpKind.hold s, SeatOpKind.confirm s] }) ∧
      (ev = PaymentEvent.result false →
        processRequest m s ev
          = { seats := ReleaseSeat (HoldSeat m s).2 s, status := "failed",
              ops := [SeatOpKind.hold s, SeatOpKind.release s] }) ∧
      (ev = PaymentEvent.deadline →
        processRequest m s ev
          = { seats := ReleaseSeat (HoldSeat m s).2 s, status := "timeout",
              ops := [SeatOpKind.hold s, SeatOpKind.release s] })) := by
  constructor
  · intro h
    have hm := holdSeat_snd_of_fail m s h
    simp [processRequest, h, hm]
  · intro h
    refine ⟨?_, ?_, ?_⟩ <;> intro hev <;> subst hev <;> simp [processRequest, h]

/-- Witness for C5: on a one-seat map with the seat Available, a true payment
result yields status "success" via ConfirmSeat. -/
theorem worker_outcomes_witness :
    (HoldSeat [("A1", SeatStatus.Available)] "A1").1 = true ∧
    processRequest [("A1", SeatStatus.Available)] "A1" (PaymentEvent.result true)
      = { seats := (ConfirmSeat (HoldSeat [("A1", SeatStatus.Available)] "A1").2 "A1").2,
          status := "success",
          ops := [SeatOpKind.hold "A1", SeatOpKind.confirm "A1"] } :=
  ⟨by decide, ((worker_outcomes [("A1", SeatStatus.Available)] "A1"
      (PaymentEvent.result true)).2 (by decide)).1 rfl⟩

/-- Capacity of the payment result channel exactly as the worker creates it:
`paymentDone := make(chan bool)` has no capacity argument, i.e. capacity 0
(unbuffered). -/
def paymentDoneCapacity : Nat := 0

/-- Go channel-send semantics for a channel that no receiver is or will be
waiting on: the send completes without blocking iff buffer space remains,
i.e. iff fewer values are buffered than the channel's capacity. -/
def sendCompletesUnreceived (capacity buffered : Nat) : Bool :=
  decide (buffered < capacity)

/-- C1 (evidence of a code bug): the spec says the payment result travels
over a capacity-1 buffered channel so the sender never blocks once the worker
abandons the race at the deadline; the worker's actual channel is unbuffered
(capacity 0), so in that situation the payment task's send blocks forever —
whereas a capacity-1 channel would indeed let it complete. -/
theorem paymentDone_send_blocks :
    sendCompletesUnreceived paymentDoneCapacity 0 = false ∧
    sendCompletesUnreceived 1 0 = true := by
  decide

end FlightBooking
